import Mathlib

/-!
Shallow embedding of the dispatcher core of TheNumberOne.py: the pattern
cast utility, the ChainMap-based command and forward registries of
DispatcherMeta, and the on_message dispatch engine of the TheNumberOne
client class.  Machine-level glue (discord transport, logging output,
plugin directory scan) is out of scope of the claims and is represented
only through the observable events the engine emits.
-/

namespace TNO

/-- Values handled by the engine: raw strings and the typed values that
Python type constructors such as int produce from captured strings. -/
inductive Val where
  | str (s : String)
  | int (n : Int)
deriving DecidableEq, Repr

/-- A keyword-argument value after casting: Python None or a value. -/
abbrev TypedVal := Option Val

/-- One raw capture from match.groupdict(): Python None (group absent) or
the captured string. -/
abbrev Cap := Option String

/-- Lookup of a key in an association list, modelling a Python dict read
(keys are unique in every dict we build). -/
def lookupFn {α : Type} : List (String × α) → String → Option α
  | [], _ => none
  | kv :: m, k => if kv.1 = k then some kv.2 else lookupFn m k

/-- One entry of the dict comprehension in cast_using_type_hints:
value if value is None or key not in type_hints else type_hints[key](value).
A raising type constructor is an .error, which propagates. -/
def castOne (hints : List (String × (String → Except String Val)))
    (k : String) (v : Cap) : Except String TypedVal :=
  match v with
  | none => .ok none
  | some s =>
    match lookupFn hints k with
    | none => .ok (some (Val.str s))
    | some f => (f s).map some

/-- cast_using_type_hints from TheNumberOne.py lines 18-25: cast each
kwarg with the type given by type_hints, except None stays None and keys
without a recorded hint pass through as strings.  The dict comprehension
evaluates entries in order and the first exception propagates. -/
def cast_using_type_hints (hints : List (String × (String → Except String Val))) :
    List (String × Cap) → Except String (List (String × TypedVal))
  | [] => .ok []
  | (k, v) :: rest =>
    match castOne hints k v with
    | .error e => .error e
    | .ok w =>
      match cast_using_type_hints hints rest with
      | .error e => .error e
      | .ok out => .ok ((k, w) :: out)

/-- Decimal digits folded into a number; none on a non-digit. -/
def digitsVal : Nat → List Char → Option Nat
  | acc, [] => some acc
  | acc, c :: cs =>
    if c.isDigit then digitsVal (acc * 10 + (c.toNat - 48)) cs else none

/-- An optionally signed nonempty run of decimal digits. -/
def parseIntChars : List Char → Option Int
  | [] => none
  | '-' :: cs =>
    match cs with
    | [] => none
    | _ => (digitsVal 0 cs).map (fun n => -(n : Int))
  | '+' :: cs =>
    match cs with
    | [] => none
    | _ => (digitsVal 0 cs).map (fun n => (n : Int))
  | cs => (digitsVal 0 cs).map (fun n => (n : Int))

/-- Python int() applied to a string: parses an optionally signed decimal
integer, raising ValueError otherwise. -/
def pyInt (s : String) : Except String Val :=
  match parseIntChars s.data with
  | some n => .ok (Val.int n)
  | none => .error "ValueError: invalid literal for int"

/-- Python str() applied to a string: identity. -/
def pyStr (s : String) : Except String Val := .ok (Val.str s)

/-! ## ChainMap model

A ChainMap is a list of layers searched front to back; each layer is a
Python dict, modelled as an association list with unique keys where
assignment replaces in place or appends. -/

abbrev Layer (α : Type) := List (String × α)

abbrev Chain (α : Type) := List (Layer α)

/-- Read of one dict layer. -/
def Layer.get {α : Type} (l : Layer α) (k : String) : Option α :=
  lookupFn l k

/-- Python dict assignment: replace the existing binding in place, else
append preserving insertion order (layers hold unique keys). -/
def Layer.set {α : Type} : Layer α → String → α → Layer α
  | [], k, v => [(k, v)]
  | kv :: l, k, v => if kv.1 = k then (k, v) :: l else kv :: Layer.set l k v

/-- In-place mutation of the object a dict holds at a key present in it:
replace the value, keep everything else. -/
def Layer.update {α : Type} : Layer α → String → (α → α) → Layer α
  | [], _, _ => []
  | kv :: l, k, f => if kv.1 = k then (kv.1, f kv.2) :: l else kv :: Layer.update l k f

/-- ChainMap lookup: the first layer containing the key wins. -/
def Chain.get {α : Type} : Chain α → String → Option α
  | [], _ => none
  | l :: ls, k =>
    match Layer.get l k with
    | some v => some v
    | none => Chain.get ls k

/-- ChainMap assignment writes into the first layer (maps[0]). -/
def Chain.set {α : Type} : Chain α → String → α → Chain α
  | [], k, v => [[(k, v)]]
  | l :: ls, k, v => Layer.set l k v :: ls

/-- In-place update of the value held by the FIRST layer that contains
the key: this is what mutating the object returned by ChainMap
__getitem__ does (the object lives in whichever layer it was found in). -/
def Chain.updateFirst {α : Type} : Chain α → String → (α → α) → Chain α
  | [], _, _ => []
  | l :: ls, k, f =>
    if (Layer.get l k).isSome then
      Layer.update l k f :: ls
    else
      l :: Chain.updateFirst ls k f

/-- DispatcherMeta.__new__: a fresh empty own layer chained in front of
the maps of every DispatcherMeta base, in order. -/
def dispatcherNew {α : Type} (bases : List (Chain α)) : Chain α :=
  [] :: bases.flatten

/-! ## Regular expressions

A small model of the subset of Python regular-expression syntax this
repository uses in command patterns: plain characters, backslash-S,
concatenation, greedy plus, greedy question mark, and named groups.
Matching follows re.match: anchored at position zero, consuming a prefix
of the subject, greedy with backtracking. -/

/-- Regular-expression abstract syntax for the subset used here.
nomatch stands for source text outside the subset and never matches. -/
inductive RE where
  | eps
  | lit (c : Char)
  | nonspace
  | seq (a b : RE)
  | plus (a : RE)
  | opt (a : RE)
  | group (name : String) (a : RE)
  | nomatch
deriving DecidableEq, Repr

/-- A size measure of a regular expression, used to provide recursion
fuel ample enough that the fuel never runs out on the patterns of this
repository. -/
def RE.size : RE → Nat
  | .seq a b => a.size + b.size + 1
  | .plus a => a.size + 1
  | .opt a => a.size + 1
  | .group _ a => a.size + 1
  | _ => 1

/-- All candidate prefix matches of a regular expression against a list
of characters, in Python backtracking preference order (greedy first).
Each result is the list of named-group bindings made on that path and
the unconsumed rest of the subject.  The fuel bounds the recursion depth
and pymatch supplies enough of it for any pattern whose plus bodies
consume at least one character, which holds for every pattern this
repository compiles. -/
def RE.matches : Nat → RE → List Char → List (List (String × String) × List Char)
  | 0, _, _ => []
  | _ + 1, .eps, s => [([], s)]
  | _ + 1, .lit c, s =>
    match s with
    | [] => []
    | x :: xs => if x = c then [([], xs)] else []
  | _ + 1, .nonspace, s =>
    match s with
    | [] => []
    | x :: xs => if x.isWhitespace then [] else [([], xs)]
  | f + 1, .seq a b, s =>
    (RE.matches f a s).flatMap (fun gr =>
      (RE.matches f b gr.2).map (fun gr2 => (gr.1 ++ gr2.1, gr2.2)))
  | f + 1, .plus a, s =>
    (RE.matches f a s).flatMap (fun gr =>
      ((RE.matches f (.plus a) gr.2).map (fun gr2 => (gr.1 ++ gr2.1, gr2.2)))
        ++ [gr])
  | f + 1, .opt a, s => RE.matches f a s ++ [([], s)]
  | f + 1, .group n a, s =>
    (RE.matches f a s).map (fun gr =>
      (gr.1 ++ [(n, String.mk (s.take (s.length - gr.2.length)))], gr.2))
  | _ + 1, .nomatch, _ => []

/-- Named groups of a regular expression, in order of appearance: what
match.groupdict() enumerates (absent groups map to None). -/
def RE.names : RE → List String
  | .seq a b => a.names ++ b.names
  | .plus a => a.names
  | .opt a => a.names
  | .group n a => n :: a.names
  | _ => []

/-- The capture name inside a named-group opener: the characters up to
the first closing angle bracket, at least one, none of them whitespace
(the lazy backslash-S-plus of args_re). -/
def takeName (acc : List Char) : List Char → Option (String × List Char)
  | [] => none
  | c :: cs =>
    if c = '>' ∧ acc ≠ [] then some (String.mk acc.reverse, cs)
    else if c.isWhitespace then none
    else takeName (c :: acc) cs

/-- takeName consumes at least the closing angle bracket, so its rest is
strictly shorter than its input. -/
theorem takeName_length (cs : List Char) : ∀ acc n r,
    takeName acc cs = some (n, r) → r.length < cs.length := by
  induction cs with
  | nil => intro acc n r h; simp [takeName] at h
  | cons c cs ih =>
    intro acc n r h
    unfold takeName at h
    split at h
    · simp at h
      obtain ⟨-, h2⟩ := h
      subst h2
      simp
    · split at h
      · simp at h
      · have := ih (c :: acc) n r h
        simp only [List.length_cons]
        omega

/-- The scanning loop of args_re.findall, with fuel bounding the number
of steps; every step consumes at least one character, so findGroups
supplies enough fuel. -/
def findGroupsAux : Nat → List Char → List String
  | 0, _ => []
  | _ + 1, [] => []
  | f + 1, '(' :: '?' :: 'P' :: '<' :: rest =>
    (match takeName [] rest with
     | some (name, rest2) => name :: findGroupsAux f rest2
     | none => findGroupsAux f ('?' :: 'P' :: '<' :: rest))
  | f + 1, _ :: cs => findGroupsAux f cs

/-- args_re.findall from TheNumberOne.py line 30: every named-group
opener occurring in the pattern source, yielding the group names. -/
def findGroups (cs : List Char) : List String :=
  findGroupsAux (cs.length + 1) cs

/-- Recursive-descent reading of a concatenation of postfixed atoms,
stopping at a closing parenthesis or the end; none on syntax outside the
modelled subset, including stacked postfix operators such as the lazy
variants.  The fuel bounds the recursion depth and parseRE supplies
enough of it. -/
def parseSeq : Nat → RE → List Char → Option (RE × List Char)
  | _, acc, [] => some (acc, [])
  | _, acc, ')' :: rest => some (acc, ')' :: rest)
  | 0, _, _ => none
  | f + 1, acc, cs =>
    let atom : Option (RE × List Char) :=
      match cs with
      | '\\' :: 'S' :: r => some (RE.nonspace, r)
      | '\\' :: c :: r => some (RE.lit c, r)
      | ['\\'] => none
      | '(' :: '?' :: 'P' :: '<' :: r =>
        (match takeName [] r with
         | none => none
         | some (name, r1) =>
           match parseSeq f RE.eps r1 with
           | some (inner, ')' :: r2) => some (RE.group name inner, r2)
           | _ => none)
      | '(' :: _ => none
      | '?' :: _ => none
      | '+' :: _ => none
      | c :: r => some (RE.lit c, r)
      | [] => none
    match atom with
    | none => none
    | some (a, r) =>
      match r with
      | '?' :: '?' :: _ => none
      | '?' :: '+' :: _ => none
      | '+' :: '?' :: _ => none
      | '+' :: '+' :: _ => none
      | '?' :: r2 => parseSeq f (RE.seq acc (RE.opt a)) r2
      | '+' :: r2 => parseSeq f (RE.seq acc (RE.plus a)) r2
      | r2 => parseSeq f (RE.seq acc a) r2

/-- Parse a whole pattern source; none when the source falls outside the
modelled subset. -/
def parseRE (p : String) : Option RE :=
  match parseSeq (2 * p.length + 2) RE.eps p.data with
  | some (r, []) => some r
  | _ => none

/-- A compiled pattern: the original source text, the named groups, and
the syntax tree.  Source text outside the modelled subset compiles to a
tree that never matches. -/
structure Regex where
  pattern : String
  groups : List String
  ast : RE
deriving Repr

/-- re.compile on a pattern source. -/
def re_compile (p : String) : Regex :=
  match parseRE p with
  | some r => { pattern := p, groups := r.names, ast := r }
  | none => { pattern := p, groups := [], ast := RE.nomatch }

/-- re.match followed by groupdict(): the first candidate in preference
order wins; every named group of the pattern appears in the dict, absent
ones as None. -/
def Regex.pymatch (re : Regex) (s : String) : Option (List (String × Cap)) :=
  (RE.matches ((re.ast.size + 1) * (s.length + 2)) re.ast s.data).head?.map
    (fun gr => re.groups.map (fun g => (g, lookupFn gr.1 g)))

/-! ## String helpers mirroring the Python string operations used -/

/-- Python str.startswith. -/
def startsWith (s p : String) : Bool :=
  p.data.isPrefixOf s.data

/-- Python str.strip of underscore characters: drop them from both ends. -/
def stripUnderscores (s : String) : String :=
  String.mk (((s.data.dropWhile (fun c => c = '_')).reverse.dropWhile
    (fun c => c = '_')).reverse)

/-- Python s.split of a single space with maxsplit one, on characters:
the part before the first space and, when a space occurs, the rest after
it. -/
def splitOnceSpace : List Char → List Char × Option (List Char)
  | [] => ([], none)
  | c :: rest =>
    if c = ' ' then ([], some rest)
    else
      let pr := splitOnceSpace rest
      (c :: pr.1, pr.2)

/-- Python s.split of a single space with maxsplit two: one, two or
three parts. -/
def splitSpace2 (cs : List Char) : List (List Char) :=
  match splitOnceSpace cs with
  | (a, none) => [a]
  | (a, some r) =>
    match splitOnceSpace r with
    | (b, none) => [a, b]
    | (b, some r2) => [a, b, r2]

/-! ## Data model -/

/-- An inbound message event: author identity and roles, channel name,
whether the channel is a server channel (a discord.Channel, as opposed
to a private one), and the raw text. -/
structure Message where
  authorId : Nat
  authorRoles : List String
  channelName : String
  channelIsPublic : Bool
  content : String

/-- A command callback together with what the engine introspects from
it: the declared name, the full argument specification (positional
count, star-args, star-kwargs, keyword-only names), the type hints used
for casting, and its behaviour, which may raise. -/
structure Handler where
  name : String
  args : Nat
  varargs : Bool
  varkw : Bool
  kwonlyargs : List String
  hints : List (String × (String → Except String Val))
  run : Message → List (String × TypedVal) → Except String Unit

/-- The Command namedtuple: channels, roles, regexp, callback. -/
structure Command where
  channels : Option (List String)
  roles : Option (List String)
  regexp : Option Regex
  callback : Handler

/-- A forward callback: its identity and behaviour, which may raise. -/
structure FwdCallback where
  name : String
  run : Message → Except String Unit

/-- The SubBot namedtuple: allow_commands, callback. -/
structure SubBot where
  allow_commands : Bool
  callback : FwdCallback

/-- The observable actions of processing one message: forward handler
invocations, outbound replies (one constructor per reply site of
on_message, carrying the data interpolated into the reply text), and
command handler invocations.  The reply constructors stand for the
French reply strings of the source; each denial is addressed to the
author in the channel of the message. -/
inductive Event where
  | forwarded (name : String)
  | replyUnknown (channel : String) (authorId : Nat) (cmdName : String)
  | replyWrongChannel (channel : String) (authorId : Nat) (cmdName : String)
      (allowed : List String)
  | replyWrongRole (channel : String) (authorId : Nat) (cmdName : String)
      (allowed : List String)
  | replyUsage (channel : String) (authorId : Nat) (cmdName : String)
      (pattern : String)
  | replyInternalError (channel : String)
  | invoked (name : String) (kwargs : List (String × TypedVal))
deriving DecidableEq, Repr

/-- The outcome of on_message: the events in order, and the exception,
if any, that escaped the coroutine uncaught. -/
structure RunResult where
  events : List Event
  uncaught : Option String
deriving DecidableEq, Repr

/-- The dispatcher state the engine reads: the bot account id and the
two ChainMap registries built by DispatcherMeta. -/
structure Bot where
  selfId : Nat
  commands : Chain Command
  forwards : Chain (List SubBot)

/-! ## Registration API (DispatcherMeta.set_command / add_forward) -/

/-- Registration-time failures of set_command.  invalidSignature and
patternArgumentMismatch are the two ValueError raises; nameError is the
NameError the warning line raises because it reads a name, unused, that
was never assigned (the assigned name is unsued). -/
inductive RegErr where
  | invalidSignature
  | patternArgumentMismatch (missing : List String)
  | nameError
deriving DecidableEq, Repr

/-- Python truthiness of the pattern argument: neither None nor empty. -/
def patTruthy : Option String → Bool
  | none => false
  | some p => p ≠ ""

/-- re.compile(pattern) if pattern else None. -/
def compileOpt : Option String → Option Regex
  | none => none
  | some p => if p = "" then none else some (re_compile p)

/-- DispatcherMeta.set_command, lines 50-75: derive the command name by
stripping underscores, reject a callback that takes no positional
argument and has no star-args, then, when a pattern is given and the
callback has no star-kwargs, compare the named groups of the pattern
with the keyword-only arguments; named groups without a matching
keyword-only argument raise, and keyword-only arguments not used by any
group hit the warning line, which raises NameError because of its typo.
On success the Command is stored in the own (first) layer of the
commands ChainMap. -/
def set_command (cls : Chain Command) (channels roles : Option (List String))
    (pattern : Option String) (cb : Handler) : Except RegErr (Chain Command) :=
  let cmd_name := stripUnderscores cb.name
  if cb.args < 1 ∧ cb.varargs = false then
    .error .invalidSignature
  else if patTruthy pattern ∧ cb.varkw = false then
    let pargs := findGroups (pattern.getD "").data
    let missings := pargs.filter (fun g => ! cb.kwonlyargs.contains g)
    if missings ≠ [] then
      .error (.patternArgumentMismatch missings)
    else if cb.kwonlyargs.filter (fun g => ! pargs.contains g) ≠ [] then
      .error .nameError
    else
      .ok (Chain.set cls cmd_name
        { channels := channels, roles := roles, regexp := compileOpt pattern,
          callback := cb })
  else
    .ok (Chain.set cls cmd_name
      { channels := channels, roles := roles, regexp := compileOpt pattern,
        callback := cb })

/-- One channel of DispatcherMeta.add_forward, lines 77-82: when the
channel is missing from the whole ChainMap, an empty list is first
assigned into the own layer; the append then mutates the list object
returned by ChainMap lookup, which lives in the first layer containing
the channel. -/
def add_forward_one (cls : Chain (List SubBot)) (channel : String)
    (sb : SubBot) : Chain (List SubBot) :=
  let cls1 := if (Chain.get cls channel).isNone then Chain.set cls channel [] else cls
  Chain.updateFirst cls1 channel (fun l => l ++ [sb])

/-- DispatcherMeta.add_forward over its channels argument, in order. -/
def add_forward (cls : Chain (List SubBot)) (channels : List String)
    (allow_commands : Bool) (cb : FwdCallback) : Chain (List SubBot) :=
  channels.foldl (fun c ch => add_forward_one c ch ⟨allow_commands, cb⟩) cls

/-! ## Dispatch engine (TheNumberOne.on_message) -/

/-- The forwarding pass, lines 107-114: each subscription of the list
found for the channel, in order; a raising callback propagates out of
on_message; a subscription with allow_commands false returns from
on_message right after its invocation.  Yields the events, whether
command processing continues, and an escaped exception if any. -/
def runForwards (msg : Message) : List SubBot → List Event × Bool × Option String
  | [] => ([], true, none)
  | sb :: rest =>
    match sb.callback.run msg with
    | .error e => ([Event.forwarded sb.callback.name], false, some e)
    | .ok _ =>
      if sb.allow_commands then
        let o := runForwards msg rest
        (Event.forwarded sb.callback.name :: o.1, o.2.1, o.2.2)
      else
        ([Event.forwarded sb.callback.name], false, none)

/-- Invocation-style detection, lines 116-124: the prefixed form drops
exactly one character of the text and splits once on a space; the
mention form splits the text twice on a space and drops the first part,
raising ValueError when nothing is left to unpack; otherwise a server
channel message is discarded and a private message splits once on a
space.  Yields none for a silent discard, or the command name and the
payload (empty when the split produced no second part). -/
def detectInvocation (pfx : String) (selfId : Nat) (msg : Message) :
    Except String (Option (String × String)) :=
  if startsWith msg.content pfx then
    let pr := splitOnceSpace (msg.content.data.drop 1)
    .ok (some (String.mk pr.1, String.mk ((pr.2).getD [])))
  else if startsWith msg.content ("<@" ++ toString selfId ++ ">") then
    match splitSpace2 msg.content.data with
    | [] => .error "ValueError: not enough values to unpack"
    | [_] => .error "ValueError: not enough values to unpack"
    | [_, b] => .ok (some (String.mk b, ""))
    | _ :: b :: r :: _ => .ok (some (String.mk b, String.mk r))
  else if msg.channelIsPublic then
    .ok none
  else
    let pr := splitOnceSpace msg.content.data
    .ok (some (String.mk pr.1, String.mk ((pr.2).getD [])))

/-- The channel-scope denial test of line 132: a restriction is present
and the channel is not in it. -/
def channelDenied (cmd : Command) (msg : Message) : Bool :=
  match cmd.channels with
  | none => false
  | some chs => ¬ chs.contains msg.channelName

/-- The role-scope denial test of line 137: a restriction is present and
no role of the author is found in it. -/
def roleDenied (cmd : Command) (msg : Message) : Bool :=
  match cmd.roles with
  | none => false
  | some rs => (msg.authorRoles.find? (fun r => rs.contains r)).isNone

/-- Handler invocation under the try of lines 157-164: a raising
callback is answered with the generic internal-error reply. -/
def invokeCmd (msg : Message) (cmd : Command)
    (kwargs : List (String × TypedVal)) : RunResult :=
  match cmd.callback.run msg kwargs with
  | .ok _ => ⟨[Event.invoked cmd.callback.name kwargs], none⟩
  | .error _ =>
    ⟨[Event.invoked cmd.callback.name kwargs,
      Event.replyInternalError msg.channelName], none⟩

/-- Command resolution through invocation, lines 126-164: registry
lookup, channel gate, role gate, pattern match and cast, then the
guarded callback call.  The cast runs outside the try, so a cast
exception escapes on_message. -/
def dispatchCommand (bot : Bot) (msg : Message) (cmd_name payload : String) :
    RunResult :=
  match Chain.get bot.commands cmd_name with
  | none => ⟨[Event.replyUnknown msg.channelName msg.authorId cmd_name], none⟩
  | some cmd =>
    if channelDenied cmd msg then
      ⟨[Event.replyWrongChannel msg.channelName msg.authorId cmd_name
          ((cmd.channels).getD [])], none⟩
    else if roleDenied cmd msg then
      ⟨[Event.replyWrongRole msg.channelName msg.authorId cmd_name
          ((cmd.roles).getD [])], none⟩
    else
      match cmd.regexp with
      | some re =>
        match re.pymatch payload with
        | none =>
          ⟨[Event.replyUsage msg.channelName msg.authorId cmd_name re.pattern],
            none⟩
        | some gd =>
          match cast_using_type_hints cmd.callback.hints gd with
          | .error e => ⟨[], some e⟩
          | .ok kwargs => invokeCmd msg cmd kwargs
      | none => invokeCmd msg cmd []

/-- TheNumberOne.on_message, lines 103-164: self-filter, forwarding
pass over the ChainMap entry for the channel (empty default), invocation
style detection, then command dispatch. -/
def on_message (pfx : String) (bot : Bot) (msg : Message) : RunResult :=
  if msg.authorId = bot.selfId then ⟨[], none⟩
  else
    let o := runForwards msg ((Chain.get bot.forwards msg.channelName).getD [])
    if o.2.1 then
      match detectInvocation pfx bot.selfId msg with
      | .error e => ⟨o.1, some e⟩
      | .ok none => ⟨o.1, none⟩
      | .ok (some np) =>
        let d := dispatchCommand bot msg np.1 np.2
        ⟨o.1 ++ d.events, d.uncaught⟩
    else ⟨o.1, o.2.2⟩

/-- Whether an event is a forward invocation. -/
def Event.isForwarded : Event → Bool
  | .forwarded _ => true
  | _ => false

/-! ## Registry lemmas -/

theorem Layer.get_set_self {α : Type} (l : Layer α) (k : String) (v : α) :
    Layer.get (Layer.set l k v) k = some v := by
  induction l with
  | nil => simp [Layer.get, Layer.set, lookupFn]
  | cons kv l ih =>
    by_cases h : kv.1 = k
    · simp [Layer.get, Layer.set, lookupFn, h]
    · simp only [Layer.set, if_neg h]
      simpa [Layer.get, lookupFn, h] using ih

theorem Layer.get_update_self {α : Type} (l : Layer α) (k : String)
    (f : α → α) (a : α) (h : Layer.get l k = some a) :
    Layer.get (Layer.update l k f) k = some (f a) := by
  induction l with
  | nil => simp [Layer.get, lookupFn] at h
  | cons kv l ih =>
    by_cases hk : kv.1 = k
    · simp [Layer.get, lookupFn, hk] at h
      simp [Layer.update, Layer.get, lookupFn, hk, h]
    · simp only [Layer.get, lookupFn, if_neg hk] at h
      simp only [Layer.update, if_neg hk]
      simpa [Layer.get, lookupFn, hk] using ih h

theorem Chain.get_set_head {α : Type} (l : Layer α) (t : Chain α)
    (k : String) (v : α) :
    Chain.get (Chain.set (l :: t) k v) k = some v := by
  simp [Chain.set, Chain.get, Layer.get_set_self]

theorem Chain.get_updateFirst_self {α : Type} (c : Chain α) (k : String)
    (f : α → α) (a : α) (h : Chain.get c k = some a) :
    Chain.get (Chain.updateFirst c k f) k = some (f a) := by
  induction c with
  | nil => simp [Chain.get] at h
  | cons l ls ih =>
    cases hl : Layer.get l k with
    | some b =>
      have hb : b = a := by simp [Chain.get, hl] at h; exact h
      subst hb
      simp [Chain.updateFirst, hl, Chain.get, Layer.get_update_self l k f b hl]
    | none =>
      have h2 : Chain.get ls k = some a := by simpa [Chain.get, hl] using h
      simp [Chain.updateFirst, hl, Chain.get, ih h2]

/-! ## Forwarding-pass lemmas -/

theorem runForwards_all_ok (msg : Message) (fs : List SubBot)
    (h : ∀ x ∈ fs, x.callback.run msg = .ok () ∧ x.allow_commands = true) :
    runForwards msg fs =
      (fs.map (fun x => Event.forwarded x.callback.name), true, none) := by
  induction fs with
  | nil => rfl
  | cons sb rest ih =>
    obtain ⟨hok, hal⟩ := h sb (by simp)
    have ih2 := ih (fun x hx => h x (by simp [hx]))
    simp [runForwards, hok, hal, ih2]

theorem runForwards_stop (msg : Message) (pre : List SubBot) (sb : SubBot)
    (post : List SubBot)
    (hpre : ∀ x ∈ pre, x.callback.run msg = .ok () ∧ x.allow_commands = true)
    (hok : sb.callback.run msg = .ok ()) (hal : sb.allow_commands = false) :
    runForwards msg (pre ++ sb :: post) =
      ((pre ++ [sb]).map (fun x => Event.forwarded x.callback.name),
        false, none) := by
  induction pre with
  | nil => simp [runForwards, hok, hal]
  | cons x pre ih =>
    obtain ⟨hxok, hxal⟩ := hpre x (by simp)
    have ih2 := ih (fun y hy => hpre y (by simp [hy]))
    simp [runForwards, hxok, hxal, ih2]

/-! ## Dispatch lemmas -/

theorem invokeCmd_no_forward (msg : Message) (cmd : Command)
    (kwargs : List (String × TypedVal)) :
    ∀ e ∈ (invokeCmd msg cmd kwargs).events, e.isForwarded = false := by
  unfold invokeCmd
  cases cmd.callback.run msg kwargs with
  | ok u => simp [Event.isForwarded]
  | error e => simp [Event.isForwarded]

theorem dispatch_no_forward (bot : Bot) (msg : Message) (n p : String) :
    ∀ e ∈ (dispatchCommand bot msg n p).events, e.isForwarded = false := by
  intro e he
  unfold dispatchCommand at he
  split at he
  · simp at he; subst he; rfl
  · split at he
    · simp at he; subst he; rfl
    · split at he
      · simp at he; subst he; rfl
      · split at he
        · split at he
          · simp at he; subst he; rfl
          · split at he
            · simp at he
            · exact invokeCmd_no_forward _ _ _ e he
        · exact invokeCmd_no_forward _ _ _ e he

/-! ## Concrete fixtures used by witnesses and counterexamples -/

/-- A forward subscription that allows commands and returns normally. -/
def fwdOkA : SubBot := ⟨true, ⟨"subA", fun _ => .ok ()⟩⟩

/-- A second such subscription. -/
def fwdOkB : SubBot := ⟨true, ⟨"subB", fun _ => .ok ()⟩⟩

/-- A forward subscription with allow_commands false. -/
def fwdStop : SubBot := ⟨false, ⟨"stop", fun _ => .ok ()⟩⟩

/-- A user message in the server channel general. -/
def msgDemo : Message :=
  { authorId := 2, authorRoles := [], channelName := "general",
    channelIsPublic := true, content := "!help" }

/-- The same message with text bang-help-space-math. -/
def msgHelpMath : Message := { msgDemo with content := "!help math" }

/-- The same message with text bang-fail-space-abc. -/
def msgFailAbc : Message := { msgDemo with content := "!fail abc" }

/-- The same message with text bang-bang-ping. -/
def msgBangBang : Message := { msgDemo with content := "!!ping" }

/-! ## Claim C1 -/

/-- Claim C1: for every message and channel, the forward subscriptions
found for the channel are invoked in exactly registration order, and an
invoked subscription with allow_commands false ends processing right
after its own invocation: the events are exactly the forwards up to and
including it, so no later subscription runs and command dispatch never
runs; when every subscription allows commands, the forwards all run in
order and everything after them is dispatch output, never a forward. -/
theorem C1_forward_order (pfx : String) (bot : Bot) (msg : Message)
    (hne : msg.authorId ≠ bot.selfId) :
    (∀ pre sb post,
      (Chain.get bot.forwards msg.channelName).getD [] = pre ++ sb :: post →
      (∀ x ∈ pre, x.callback.run msg = .ok () ∧ x.allow_commands = true) →
      sb.callback.run msg = .ok () →
      sb.allow_commands = false →
      on_message pfx bot msg =
        ⟨(pre ++ [sb]).map (fun x => Event.forwarded x.callback.name), none⟩)
    ∧ (∀ fs,
      (Chain.get bot.forwards msg.channelName).getD [] = fs →
      (∀ x ∈ fs, x.callback.run msg = .ok () ∧ x.allow_commands = true) →
      ∃ rest, (on_message pfx bot msg).events =
          fs.map (fun x => Event.forwarded x.callback.name) ++ rest
        ∧ ∀ e ∈ rest, e.isForwarded = false) := by
  constructor
  · intro pre sb post hfs hpre hok hal
    have hrun := runForwards_stop msg pre sb post hpre hok hal
    unfold on_message
    rw [if_neg hne, hfs, hrun]
    rfl
  · intro fs hfs hall
    have hrun := runForwards_all_ok msg fs hall
    unfold on_message
    rw [if_neg hne, hfs, hrun]
    cases hdet : detectInvocation pfx bot.selfId msg with
    | error e => exact ⟨[], by simp, by simp⟩
    | ok o =>
      cases o with
      | none => exact ⟨[], by simp, by simp⟩
      | some np =>
        exact ⟨(dispatchCommand bot msg np.1 np.2).events, rfl,
          dispatch_no_forward bot msg np.1 np.2⟩

/-- The C1 bot: three subscriptions for general, the second of which
disallows commands. -/
def botC1 : Bot :=
  { selfId := 1, commands := [[]],
    forwards := [[("general", [fwdOkA, fwdStop, fwdOkB])]] }

/-- Witness for C1 at a concrete input: subA runs, then stop runs and
ends the message; subB and dispatch never happen. -/
theorem C1_forward_order_witness :
    on_message "!" botC1 msgDemo =
      ⟨[Event.forwarded "subA", Event.forwarded "stop"], none⟩ :=
  (C1_forward_order "!" botC1 msgDemo (by decide)).1
    [fwdOkA] fwdStop [fwdOkB] rfl
    (by intro x hx; simp at hx; subst hx; exact ⟨rfl, rfl⟩) rfl rfl

/-! ## Claim C2 -/

/-- Claim C2 as amended: an exception raised by the handler is caught
and answered with the generic internal-error reply, but an exception
raised during argument casting is NOT caught: the cast runs before the
try block, so the exception leaves the dispatch engine uncaught and no
reply is sent. -/
theorem C2_error_containment_amended (bot : Bot) (msg : Message)
    (n payload : String) (cmd : Command) (re : Regex) (gd : List (String × Cap))
    (hres : Chain.get bot.commands n = some cmd)
    (hch : channelDenied cmd msg = false)
    (hrl : roleDenied cmd msg = false)
    (hre : cmd.regexp = some re)
    (hm : re.pymatch payload = some gd) :
    (∀ e, cast_using_type_hints cmd.callback.hints gd = .error e →
      dispatchCommand bot msg n payload = ⟨[], some e⟩)
    ∧ (∀ kwargs e2, cast_using_type_hints cmd.callback.hints gd = .ok kwargs →
      cmd.callback.run msg kwargs = .error e2 →
      dispatchCommand bot msg n payload =
        ⟨[Event.invoked cmd.callback.name kwargs,
          Event.replyInternalError msg.channelName], none⟩) := by
  have base : dispatchCommand bot msg n payload =
      (match cast_using_type_hints cmd.callback.hints gd with
       | .error e => ⟨[], some e⟩
       | .ok kwargs => invokeCmd msg cmd kwargs) := by
    unfold dispatchCommand
    rw [hres]
    simp [hch, hrl, hre, hm]
  constructor
  · intro e hc
    rw [base, hc]
  · intro kwargs e2 hc hrun
    rw [base, hc]
    simp [invokeCmd, hrun]

/-- A command whose single named group carries an int type hint. -/
def hCast : Handler :=
  { name := "fail", args := 1, varargs := false, varkw := false,
    kwonlyargs := ["a"], hints := [("a", pyInt)], run := fun _ _ => .ok () }

/-- The registered form of hCast. -/
def cmdCast : Command :=
  { channels := none, roles := none,
    regexp := some (re_compile "(?P<a>\\S+)"), callback := hCast }

/-- A command whose handler raises. -/
def hBoom : Handler :=
  { name := "boom", args := 1, varargs := false, varkw := false,
    kwonlyargs := ["a"], hints := [], run := fun _ _ => .error "boom" }

/-- The registered form of hBoom. -/
def cmdBoom : Command :=
  { channels := none, roles := none,
    regexp := some (re_compile "(?P<a>\\S+)"), callback := hBoom }

/-- A bot whose registry holds both demonstration commands. -/
def botC2 : Bot :=
  { selfId := 1, commands := [[("fail", cmdCast), ("boom", cmdBoom)]],
    forwards := [[]] }

/-- Witness for the amended C2: the failing int cast of abc escapes the
engine with no reply, while a raising handler is answered with the
generic internal error. -/
theorem C2_error_containment_witness :
    dispatchCommand botC2 msgDemo "fail" "abc" =
      ⟨[], some "ValueError: invalid literal for int"⟩
    ∧ dispatchCommand botC2 msgDemo "boom" "x" =
      ⟨[Event.invoked "boom" [("a", some (Val.str "x"))],
        Event.replyInternalError "general"], none⟩ :=
  ⟨(C2_error_containment_amended botC2 msgDemo "fail" "abc" cmdCast
      (re_compile "(?P<a>\\S+)") [("a", some "abc")]
      rfl rfl rfl rfl rfl).1 "ValueError: invalid literal for int" rfl,
   (C2_error_containment_amended botC2 msgDemo "boom" "x" cmdBoom
      (re_compile "(?P<a>\\S+)") [("a", some "x")]
      rfl rfl rfl rfl rfl).2 [("a", some (Val.str "x"))] "boom" rfl rfl⟩

/-- Counterexample to C2 as stated: for the message bang-fail-abc the
argument cast raises, the engine sends no reply at all (in particular no
internal-error reply) and the exception propagates out of on_message. -/
theorem C2_cex :
    on_message "!" botC2 msgFailAbc =
      ⟨[], some "ValueError: invalid literal for int"⟩ := rfl

/-! ## Claim C3 -/

/-- The casting contract exactly as the specification words it, per
entry: the key is preserved; an absent value passes through unchanged; a
present string with a recorded type is replaced by the value that the
type constructor returns for it; a present string without a recorded
type passes through as a string. -/
def castSpecRel (hints : List (String × (String → Except String Val)))
    (kv : String × Cap) (out : String × TypedVal) : Prop :=
  out.1 = kv.1 ∧
  match kv.2 with
  | none => out.2 = none
  | some s =>
    match lookupFn hints kv.1 with
    | none => out.2 = some (Val.str s)
    | some f => ∃ v, f s = .ok v ∧ out.2 = some v

/-- Claim C3: whenever the cast utility returns a mapping, that mapping
satisfies the specified contract entry by entry, in order. -/
theorem C3_cast_contract (hints : List (String × (String → Except String Val)))
    (kwargs : List (String × Cap)) (out : List (String × TypedVal))
    (h : cast_using_type_hints hints kwargs = .ok out) :
    List.Forall₂ (castSpecRel hints) kwargs out := by
  induction kwargs generalizing out with
  | nil =>
    simp [cast_using_type_hints] at h
    subst h
    exact List.Forall₂.nil
  | cons kv rest ih =>
    obtain ⟨k, v⟩ := kv
    unfold cast_using_type_hints at h
    cases hco : castOne hints k v with
    | error e => rw [hco] at h; simp at h
    | ok w =>
      rw [hco] at h
      cases hrec : cast_using_type_hints hints rest with
      | error e => rw [hrec] at h; simp at h
      | ok out2 =>
        rw [hrec] at h
        simp at h
        subst h
        refine List.Forall₂.cons ?_ (ih out2 hrec)
        refine ⟨rfl, ?_⟩
        cases v with
        | none =>
          simp [castOne] at hco
          simp [← hco]
        | some s =>
          cases hl : lookupFn hints k with
          | none =>
            simp [castOne, hl] at hco
            simp [hl, ← hco]
          | some f =>
            simp only [castOne, hl] at hco
            simp only [hl]
            cases hf : f s with
            | error e => simp [hf, Except.map] at hco
            | ok v2 =>
              simp [hf, Except.map] at hco
              exact ⟨v2, rfl, by simp [← hco]⟩

/-- Witness for C3 at the concrete instance of the claim: type hint for
a only, capture a present as the string 5, capture b absent; the result
types a as int 5 and leaves b as None. -/
theorem C3_cast_contract_witness :
    List.Forall₂ (castSpecRel [("a", pyInt)])
      [("a", some "5"), ("b", none)]
      [("a", some (Val.int 5)), ("b", none)] :=
  C3_cast_contract [("a", pyInt)] [("a", some "5"), ("b", none)]
    [("a", some (Val.int 5)), ("b", none)] rfl

/-! ## Claim C4 -/

/-- Claim C4: a successful registration on a dispatcher whose own layer
sits in front of its ancestor layers makes the effective registry
resolve the derived name to the newly built Command, and leaves every
ancestor layer exactly as it was: the write replaces within the own
layer only, never merging with or mutating an ancestor entry. -/
theorem C4_command_shadowing (own : Layer Command) (anc : Chain Command)
    (chans roles : Option (List String)) (pat : Option String)
    (cb : Handler) (out : Chain Command)
    (h : set_command (own :: anc) chans roles pat cb = .ok out) :
    Chain.get out (stripUnderscores cb.name) =
      some { channels := chans, roles := roles, regexp := compileOpt pat,
             callback := cb }
    ∧ out.tail = anc := by
  have hout : out = Chain.set (own :: anc) (stripUnderscores cb.name)
      { channels := chans, roles := roles, regexp := compileOpt pat,
        callback := cb } := by
    simp only [set_command] at h
    split_ifs at h <;> simp_all
  subst hout
  constructor
  · exact Chain.get_set_head own anc _ _
  · rfl

/-- An ancestor-layer command named ping. -/
def hPingA : Handler :=
  { name := "ping", args := 1, varargs := false, varkw := false,
    kwonlyargs := [], hints := [], run := fun _ _ => .ok () }

/-- The ancestor Command built from hPingA. -/
def cmdPingA : Command :=
  { channels := none, roles := none, regexp := none, callback := hPingA }

/-- A descendant handler of the same derived name ping. -/
def hPingB : Handler :=
  { name := "ping", args := 1, varargs := false, varkw := false,
    kwonlyargs := [], hints := [], run := fun _ _ => .error "B" }

/-- The descendant Command built from hPingB. -/
def cmdPingB : Command :=
  { channels := none, roles := none, regexp := none, callback := hPingB }

/-- Witness for C4 at a concrete input: registering ping on a descendant
whose ancestor already has ping resolves lookups to the new definition
while the ancestor layer keeps its own ping untouched. -/
theorem C4_command_shadowing_witness :
    Chain.get [[("ping", cmdPingB)], [("ping", cmdPingA)]] "ping" =
      some cmdPingB
    ∧ ([[("ping", cmdPingB)], [("ping", cmdPingA)]] : Chain Command).tail =
      [[("ping", cmdPingA)]] :=
  C4_command_shadowing [] [[("ping", cmdPingA)]] none none none hPingB _ rfl

/-! ## Claim C5 -/

/-- Claim C5 as amended: when a descendant dispatcher registers a
forward for a channel that only an ancestor layer holds, nothing is
written to the descendant's own layer; the subscription is appended in
place to the ancestor's existing list, so the descendant's effective
registry sees the merged list and the ancestor's own registry is
modified the same way through the shared layer. -/
theorem C5_forward_merge_amended (own : Layer (List SubBot))
    (rest : Chain (List SubBot)) (ch : String) (sb : SubBot)
    (l : List SubBot)
    (hown : Layer.get own ch = none) (hrest : Chain.get rest ch = some l) :
    add_forward_one (own :: rest) ch sb =
      own :: Chain.updateFirst rest ch (fun x => x ++ [sb])
    ∧ Chain.get (add_forward_one (own :: rest) ch sb) ch = some (l ++ [sb])
    ∧ Chain.get (Chain.updateFirst rest ch (fun x => x ++ [sb])) ch =
      some (l ++ [sb]) := by
  have hget : Chain.get (own :: rest) ch = some l := by
    simp [Chain.get, hown, hrest]
  have h3 := Chain.get_updateFirst_self rest ch (fun x => x ++ [sb]) l hrest
  have h1 : add_forward_one (own :: rest) ch sb =
      own :: Chain.updateFirst rest ch (fun x => x ++ [sb]) := by
    unfold add_forward_one
    rw [hget]
    simp [Chain.updateFirst, hown]
  refine ⟨h1, ?_, h3⟩
  rw [h1]
  simp [Chain.get, hown, h3]

/-- Witness for the amended C5 at a concrete input: a descendant with an
empty own layer over an ancestor holding subA on channel c appends subB
to the shared ancestor list. -/
theorem C5_forward_merge_witness :
    add_forward_one [[], [("c", [fwdOkA])]] "c" fwdOkB =
      [] :: Chain.updateFirst [[("c", [fwdOkA])]] "c" (fun x => x ++ [fwdOkB])
    ∧ Chain.get (add_forward_one [[], [("c", [fwdOkA])]] "c" fwdOkB) "c" =
      some ([fwdOkA] ++ [fwdOkB])
    ∧ Chain.get
        (Chain.updateFirst [[("c", [fwdOkA])]] "c" (fun x => x ++ [fwdOkB]))
        "c" = some ([fwdOkA] ++ [fwdOkB]) :=
  C5_forward_merge_amended [] [[("c", [fwdOkA])]] "c" fwdOkB [fwdOkA] rfl rfl

/-- Counterexample to C5 as stated: after the descendant registers for
channel c, its own layer is still empty (no shadowing entry was created)
and the ancestor layer's list for c was mutated to hold both
subscriptions, so the ancestor's own list did not stay unmodified. -/
theorem C5_cex :
    (add_forward_one [[], [("c", [fwdOkA])]] "c" fwdOkB).head? =
      some ([] : Layer (List SubBot))
    ∧ (Chain.get (add_forward_one [[], [("c", [fwdOkA])]] "c" fwdOkB).tail
        "c").map (fun l => l.map (fun s => s.callback.name)) =
      some ["subA", "subB"] :=
  ⟨rfl, rfl⟩

/-! ## Claim C6 -/

/-- Splitting once on a space after a space-free part yields that part
and the rest. -/
theorem splitOnceSpace_append (t r : List Char) (h : ' ' ∉ t) :
    splitOnceSpace (t ++ ' ' :: r) = (t, some r) := by
  induction t with
  | nil => simp [splitOnceSpace]
  | cons c t ih =>
    have hc : c ≠ ' ' := by intro hc; exact h (by simp [hc])
    have ih2 := ih (fun hm => h (by simp [hm]))
    simp [splitOnceSpace, hc, ih2]

/-- Splitting once on a space of a space-free list yields the whole list
and no rest. -/
theorem splitOnceSpace_nospace (t : List Char) (h : ' ' ∉ t) :
    splitOnceSpace t = (t, none) := by
  induction t with
  | nil => rfl
  | cons c t ih =>
    have hc : c ≠ ' ' := by intro hc; exact h (by simp [hc])
    have ih2 := ih (fun hm => h (by simp [hm]))
    simp [splitOnceSpace, hc, ih2]

/-- Claim C6 as amended: for a one-character command prefix, the command
name is the first space-delimited token after the prefix and the payload
is the remainder after the first space, empty when the text has no
space; the engine strips exactly one leading character, not the prefix
length, so only one-character prefixes give the token after the prefix. -/
theorem C6_detect_amended (pfx : String) (c : Char) (selfId : Nat)
    (msg : Message) (tok rem : String)
    (hp : pfx.data = [c]) (hns : ' ' ∉ tok.data) :
    (msg.content.data = c :: (tok.data ++ ' ' :: rem.data) →
      detectInvocation pfx selfId msg = .ok (some (tok, rem)))
    ∧ (msg.content.data = c :: tok.data →
      detectInvocation pfx selfId msg = .ok (some (tok, ""))) := by
  constructor
  · intro hc
    have hsw : startsWith msg.content pfx = true := by
      simp [startsWith, hc, hp, List.isPrefixOf]
    unfold detectInvocation
    rw [if_pos hsw, hc]
    simp [splitOnceSpace_append tok.data rem.data hns]
  · intro hc
    have hsw : startsWith msg.content pfx = true := by
      simp [startsWith, hc, hp, List.isPrefixOf]
    unfold detectInvocation
    rw [if_pos hsw, hc]
    simp [splitOnceSpace_nospace tok.data hns]

/-- Witness for the amended C6 at a concrete input: with prefix bang,
the text bang-help-space-math yields command help and payload math. -/
theorem C6_detect_amended_witness :
    detectInvocation "!" 1 msgHelpMath = .ok (some ("help", "math")) :=
  (C6_detect_amended "!" '!' 1 msgHelpMath "help" "math" rfl (by decide)).1 rfl

/-- Counterexample to C6 as stated: with the two-character prefix
bang-bang and text bang-bang-ping, the extracted command name is
bang-ping, not the first token after the prefix, which is ping. -/
theorem C6_cex :
    detectInvocation "!!" 1 msgBangBang = .ok (some ("!ping", ""))
    ∧ ("!ping" : String) ≠ "ping" :=
  ⟨rfl, by decide⟩

/-! ## Claim C7 -/

/-- Claim C7: registering a handler with a valid signature, a non-empty
pattern, no star-kwargs, and some named group without a matching
keyword-only parameter fails with the pattern-argument-mismatch error
naming the unmatched groups; the error is raised before the store line,
so the command table is left unchanged. -/
theorem C7_pattern_mismatch (cls : Chain Command)
    (chans roles : Option (List String)) (p : String) (cb : Handler)
    (hsig : 1 ≤ cb.args ∨ cb.varargs = true)
    (hp : p ≠ "") (hvk : cb.varkw = false)
    (hmiss : ∃ g ∈ findGroups p.data, cb.kwonlyargs.contains g = false) :
    set_command cls chans roles (some p) cb =
      .error (.patternArgumentMismatch
        ((findGroups p.data).filter (fun g => ! cb.kwonlyargs.contains g))) := by
  have hnot : ¬ (cb.args < 1 ∧ cb.varargs = false) := by
    intro hand
    rcases hsig with hs | hs
    · omega
    · rw [hs] at hand
      exact absurd hand.2 (by simp)
  have htr : patTruthy (some p) = true ∧ cb.varkw = false := by
    exact ⟨by simp [patTruthy, hp], hvk⟩
  have hfil : (findGroups p.data).filter
      (fun g => ! cb.kwonlyargs.contains g) ≠ [] := by
    obtain ⟨g, hg, hgc⟩ := hmiss
    intro hcontra
    have hmem : g ∈ (findGroups p.data).filter
        (fun g => ! cb.kwonlyargs.contains g) :=
      List.mem_filter.mpr ⟨hg, by simpa using hgc⟩
    rw [hcontra] at hmem
    exact absurd hmem (by simp)
  simp only [set_command, Option.getD_some]
  rw [if_neg hnot, if_pos htr, if_pos hfil]

/-- A handler with no keyword-only parameters at all. -/
def hNoKw : Handler :=
  { name := "solo", args := 1, varargs := false, varkw := false,
    kwonlyargs := [], hints := [], run := fun _ _ => .ok () }

/-- Witness for C7 at a concrete input: a pattern naming group x with a
handler that has no keyword parameter x is rejected with the mismatch
error naming x. -/
theorem C7_pattern_mismatch_witness :
    set_command [[]] none none (some "(?P<x>\\S+)") hNoKw =
      .error (.patternArgumentMismatch ["x"]) :=
  C7_pattern_mismatch [[]] none none "(?P<x>\\S+)" hNoKw
    (Or.inl (by decide)) (by decide) rfl ⟨"x", by decide, rfl⟩

/-! ## Claim C8 -/

/-- A handler declaring keyword-only parameters a and b, while the
pattern below names only a. -/
def hUnusedKw : Handler :=
  { name := "u", args := 1, varargs := false, varkw := false,
    kwonlyargs := ["a", "b"], hints := [], run := fun _ _ => .ok () }

/-- Claim C8 is what the source intends, but the warning line reads the
misspelled name unused where only unsued was assigned: at this input all
named groups have matching keyword-only parameters, b is left over, and
instead of logging a warning and storing the command the registration
raises NameError, so the command is not inserted. -/
theorem C8_unused_kwargs_namerror :
    set_command [[]] none none (some "(?P<a>\\S+)") hUnusedKw =
      .error .nameError := rfl

/-! ## Claim C9 -/

/-- An echo-like command with one mandatory nonspace group and no type
hint beyond str. -/
def hEcho : Handler :=
  { name := "echo", args := 1, varargs := false, varkw := false,
    kwonlyargs := ["a"], hints := [("a", pyStr)], run := fun _ _ => .ok () }

/-- The registered form of hEcho. -/
def cmdEcho : Command :=
  { channels := none, roles := none,
    regexp := some (re_compile "(?P<a>\\S+)"), callback := hEcho }

/-- A bot holding only the echo command. -/
def botEcho : Bot :=
  { selfId := 1, commands := [[("echo", cmdEcho)]], forwards := [[]] }

/-- Claim C9: for a resolved, scope-authorized command with a pattern,
a payload the pattern does not match is answered with the usage denial
that embeds the pattern text, addressed to the author, and the handler
is not invoked; matching is re.match style, anchored at position zero
without needing to consume the whole payload, shown concretely: the
nonspace-plus pattern dispatches on payload math-space-extra consuming
only math, and fails on space-math even though math occurs later. -/
theorem C9_pattern_gate (bot : Bot) (msg : Message) (n payload : String)
    (cmd : Command) (re : Regex)
    (hres : Chain.get bot.commands n = some cmd)
    (hch : channelDenied cmd msg = false)
    (hrl : roleDenied cmd msg = false)
    (hre : cmd.regexp = some re)
    (hm : re.pymatch payload = none) :
    dispatchCommand bot msg n payload =
      ⟨[Event.replyUsage msg.channelName msg.authorId n re.pattern], none⟩
    ∧ dispatchCommand botEcho msgDemo "echo" "math extra" =
      ⟨[Event.invoked "echo" [("a", some (Val.str "math"))]], none⟩
    ∧ dispatchCommand botEcho msgDemo "echo" " math" =
      ⟨[Event.replyUsage "general" 2 "echo" "(?P<a>\\S+)"], none⟩ := by
  refine ⟨?_, rfl, rfl⟩
  unfold dispatchCommand
  rw [hres]
  simp [hch, hrl, hre, hm]

/-- Witness for C9 at a concrete input: the echo command denied on the
unmatched payload space-math, with the two anchoring demonstrations. -/
theorem C9_pattern_gate_witness :
    dispatchCommand botEcho msgDemo "echo" " math" =
      ⟨[Event.replyUsage "general" 2 "echo" "(?P<a>\\S+)"], none⟩
    ∧ dispatchCommand botEcho msgDemo "echo" "math extra" =
      ⟨[Event.invoked "echo" [("a", some (Val.str "math"))]], none⟩
    ∧ dispatchCommand botEcho msgDemo "echo" " math" =
      ⟨[Event.replyUsage "general" 2 "echo" "(?P<a>\\S+)"], none⟩ :=
  C9_pattern_gate botEcho msgDemo "echo" " math" cmdEcho
    (re_compile "(?P<a>\\S+)") rfl rfl rfl rfl rfl

/-! ## Claim C10 -/

/-- The help handler of the source: star-args, keyword-only cmd_name
with a str hint, optional nonspace group. -/
def hHelp : Handler :=
  { name := "help_", args := 1, varargs := true, varkw := false,
    kwonlyargs := ["cmd_name"], hints := [("cmd_name", pyStr)],
    run := fun _ _ => .ok () }

/-- The registered form of hHelp under its stripped name. -/
def cmdHelp : Command :=
  { channels := none, roles := none,
    regexp := some (re_compile "(?P<cmd_name>\\S+)?"), callback := hHelp }

/-- A bot holding only the help command. -/
def botHelp : Bot :=
  { selfId := 1, commands := [[("help", cmdHelp)]], forwards := [[]] }

/-- Claim C10: for every message whose text holds no space, whatever
the prefix, bot identity and invocation style, a successful detection
carries the empty string as payload; and for every resolved,
scope-authorized command whose pattern matches that empty payload, with
the groupdict cast succeeding and the handler returning, dispatch on the
empty payload invokes the handler with exactly the cast output; shown
end to end on the help command, whose optional group is absent in the
empty payload and reaches the handler as None. -/
theorem C10_empty_payload_dispatch :
    (∀ (pfx : String) (selfId : Nat) (msg : Message) (n p : String),
      ' ' ∉ msg.content.data →
      detectInvocation pfx selfId msg = .ok (some (n, p)) →
      p = "")
    ∧ (∀ (bot : Bot) (msg : Message) (n : String) (cmd : Command)
        (re : Regex) (gd : List (String × Cap))
        (kwargs : List (String × TypedVal)),
      Chain.get bot.commands n = some cmd →
      channelDenied cmd msg = false →
      roleDenied cmd msg = false →
      cmd.regexp = some re →
      re.pymatch "" = some gd →
      cast_using_type_hints cmd.callback.hints gd = .ok kwargs →
      cmd.callback.run msg kwargs = .ok () →
      dispatchCommand bot msg n "" =
        ⟨[Event.invoked cmd.callback.name kwargs], none⟩)
    ∧ on_message "!" botHelp msgDemo =
      ⟨[Event.invoked "help_" [("cmd_name", none)]], none⟩ := by
  refine ⟨?_, ?_, rfl⟩
  · intro pfx selfId msg n p hns hdet
    unfold detectInvocation at hdet
    by_cases h1 : startsWith msg.content pfx = true
    · rw [if_pos h1] at hdet
      have hsub : ' ' ∉ msg.content.data.drop 1 := fun hm =>
        hns ((List.drop_sublist 1 msg.content.data).mem hm)
      rw [splitOnceSpace_nospace _ hsub] at hdet
      simp at hdet
      exact hdet.2.symm
    · rw [if_neg h1] at hdet
      by_cases h2 : startsWith msg.content ("<@" ++ toString selfId ++ ">") = true
      · rw [if_pos h2] at hdet
        rw [show splitSpace2 msg.content.data = [msg.content.data] from by
          simp [splitSpace2, splitOnceSpace_nospace _ hns]] at hdet
        simp at hdet
      · rw [if_neg h2] at hdet
        by_cases h3 : msg.channelIsPublic = true
        · rw [if_pos h3] at hdet
          simp at hdet
        · rw [if_neg h3] at hdet
          rw [splitOnceSpace_nospace _ hns] at hdet
          simp at hdet
          exact hdet.2.symm
  · intro bot msg n cmd re gd kwargs hres hch hrl hre hm hcast hrun
    unfold dispatchCommand
    rw [hres]
    simp [hch, hrl, hre, hm, hcast, invokeCmd, hrun]

/-- Witness for C10 at a concrete input: the bare text bang-help has no
space, detection yields payload empty, and the help command with its
all-optional pattern dispatches on the empty payload with cmd_name None. -/
theorem C10_empty_payload_dispatch_witness :
    ("" : String) = ""
    ∧ dispatchCommand botHelp msgDemo "help" "" =
      ⟨[Event.invoked "help_" [("cmd_name", none)]], none⟩ :=
  ⟨(C10_empty_payload_dispatch).1 "!" 1 msgDemo "help" "" (by decide) rfl,
   (C10_empty_payload_dispatch).2.1 botHelp msgDemo "help" cmdHelp
     (re_compile "(?P<cmd_name>\\S+)?") [("cmd_name", none)]
     [("cmd_name", none)] rfl rfl rfl rfl rfl rfl rfl⟩

end TNO
